import Mathlib

/-!
# FeatureLayerQuery sample: a shallow embedding

Source: `ArcGISRuntimeSDKQt_CppSamples/Features/FeatureLayerQuery/FeatureLayerQuery.cpp`.

The class `FeatureLayerQuery` is glue between a QML view and the ArcGIS Runtime
SDK.  Its own state is two members (`m_initialized`, `m_queryResultsCount`);
everything else it does is a call on an SDK object.  The embedding keeps the
two members and records, for each SDK object the class mutates, the part of
that object's state the calls change:

* `m_featureLayer` : the list of selected features
  (`clearSelection`, `selectFeatures`);
* `m_mapView`      : the list of `setViewpointGeometry` calls, oldest first;
* `m_featureTable` : the list of `queryFeatures` calls, oldest first;
* the Qt signals emitted by the object, oldest first.

SDK and Qt behaviour that the source relies on and that is not part of the
repository:

* `FeatureQueryResult::iterator()` hands out a handle on one shared forward-only
  cursor: `hasNext()` tells whether a feature is pending, `next()` returns the
  first pending feature and advances the cursor;
* `FeatureLayer::clearSelection()` empties the selection,
  `FeatureLayer::selectFeatures(list)` adds the features of `list` to it;
* `QString::toUpper()` replaces every character by its upper-case mapping, a
  sequence of characters taken from the Unicode case table.  The table is a
  parameter `upperOf` of the embedding.
-/

namespace FeatureLayerQuerySample

/-! ## Data model -/

/-- Geometry of a feature; the sample only passes it on to the map view. -/
structure Geometry where
  id : Nat
  deriving DecidableEq

/-- One feature record returned by the service. -/
structure Feature where
  objectId : Nat
  geometry : Geometry
  deriving DecidableEq

/-- SDK enumeration `LoadStatus`. -/
inductive LoadStatus where
  | Loaded
  | Loading
  | FailedToLoad
  | NotLoaded
  | Unknown
  deriving DecidableEq

/-- The two signals of `FeatureLayerQuery`. -/
inductive Signal where
  | queryResultsCountChanged
  | layerInitializedChanged
  deriving DecidableEq

/-- SDK type `QueryParameters`; the sample sets only the where clause. -/
structure QueryParameters where
  whereClause : String
  deriving DecidableEq

/-- SDK type `FeatureQueryResult`, seen through its iterator: the features the
shared cursor has not handed out yet, in the order the service returned them. -/
structure FeatureQueryResult where
  pending : List Feature
  deriving DecidableEq

/-- The object `FeatureLayerQuery` together with the state of the SDK objects it
mutates. -/
structure FeatureLayerQuery where
  /-- member `m_initialized` -/
  m_initialized : Bool
  /-- member `m_queryResultsCount`, an `int`; the only values stored are `0`
  and `QList::count()`, itself an `int`, so no arithmetic can wrap -/
  m_queryResultsCount : Int
  /-- selected features of `m_featureLayer` -/
  selected : List Feature
  /-- calls of `m_mapView->setViewpointGeometry(geometry, padding)`, oldest
  first; the padding is the integer literal passed by the source -/
  viewpointCalls : List (Geometry × Int)
  /-- signals emitted, oldest first -/
  emitted : List Signal
  /-- calls of `m_featureTable->queryFeatures(params)`, oldest first -/
  issuedQueries : List QueryParameters
  deriving DecidableEq

/-! ## SDK and Qt operations used by the sample -/

/-- The single-quote character (U+0027). -/
def quote : Char := Char.ofNat 39

/-- `QString::toUpper()`: every character is replaced by its upper-case
mapping `upperOf c`. -/
def toUpper (upperOf : Char → List Char) (s : String) : String :=
  ⟨s.data.flatMap upperOf⟩

/-- The ASCII part of the case table: `a`..`z` go to `A`..`Z`, every other
character is kept. -/
def asciiUpperOf (c : Char) : List Char := [c.toUpper]

/-- `queryResult->iterator().hasNext()`. -/
def FeatureQueryResult.hasNext (queryResult : FeatureQueryResult) : Bool :=
  match queryResult.pending with
  | [] => false
  | _ :: _ => true

/-- `queryResult->iterator().next(parent)`: the first pending feature and the
advanced cursor; `none` stands for the null pointer returned at the end. -/
def FeatureQueryResult.next (queryResult : FeatureQueryResult) :
    Option (Feature × FeatureQueryResult) :=
  match queryResult.pending with
  | [] => none
  | f :: rest => some (f, ⟨rest⟩)

/-- `m_featureLayer->clearSelection()`. -/
def FeatureLayerQuery.clearSelection (self : FeatureLayerQuery) : FeatureLayerQuery :=
  { self with selected := [] }

/-- `m_featureLayer->selectFeatures(features)`. -/
def FeatureLayerQuery.selectFeatures (self : FeatureLayerQuery) (features : List Feature) :
    FeatureLayerQuery :=
  { self with selected := self.selected ++ features }

/-- `m_mapView->setViewpointGeometry(geometry, padding)`. -/
def FeatureLayerQuery.setViewpointGeometry (self : FeatureLayerQuery) (geometry : Geometry)
    (padding : Int) : FeatureLayerQuery :=
  { self with viewpointCalls := self.viewpointCalls ++ [(geometry, padding)] }

/-- `emit signal()`. -/
def FeatureLayerQuery.emit (self : FeatureLayerQuery) (signal : Signal) : FeatureLayerQuery :=
  { self with emitted := self.emitted ++ [signal] }

/-! ## The sample's own code -/

/-- State right after the constructor: `m_initialized(false)`,
`m_queryResultsCount(0)`, nothing selected, nothing called, nothing emitted. -/
def FeatureLayerQuery.init : FeatureLayerQuery :=
  { m_initialized := false, m_queryResultsCount := 0, selected := [],
    viewpointCalls := [], emitted := [], issuedQueries := [] }

/-- The loop
`while (queryResult->iterator().hasNext()) features.append(queryResult->iterator().next(this));`
run on a cursor with the given pending features.  On `[]` the test `hasNext()`
fails and the loop ends; on `f :: rest` the test holds, `next()` returns `f`,
leaves `rest` pending, and `f` is appended.  Returns the list built and the
cursor left behind. -/
def whileHasNext : List Feature → List Feature → List Feature × FeatureQueryResult
  | [], features => (features, ⟨[]⟩)
  | f :: rest, features => whileHasNext rest (features ++ [f])

/-- The lambda connected to `ServiceFeatureTable::queryFeaturesCompleted`.
`none` is the out-of-range access `features.at(0)` on an empty list. -/
def FeatureLayerQuery.queryFeaturesCompleted (self : FeatureLayerQuery)
    (queryResult : FeatureQueryResult) : Option FeatureLayerQuery :=
  if !queryResult.hasNext then
    some ({ self with m_queryResultsCount := 0 }.emit Signal.queryResultsCountChanged)
  else
    -- clear any existing selection
    let self := self.clearSelection
    -- iterate over the result object
    let features := (whileHasNext queryResult.pending []).1
    -- select the feature
    let self := self.selectFeatures features
    -- zoom to the first feature
    match features[0]? with
    | none => none
    | some first =>
      let self := self.setViewpointGeometry first.geometry 200
      -- set the count for QML property
      some ({ self with m_queryResultsCount := (features.length : Int) }.emit
        Signal.queryResultsCountChanged)

/-- The lambda connected to `ServiceFeatureTable::loadStatusChanged`. -/
def FeatureLayerQuery.loadStatusChanged (self : FeatureLayerQuery) (loadStatus : LoadStatus) :
    FeatureLayerQuery :=
  let self :=
    if loadStatus = LoadStatus.Loaded then { self with m_initialized := true }
    else { self with m_initialized := false }
  self.emit Signal.layerInitializedChanged

/-- `FeatureLayerQuery::layerInitialized()`. -/
def FeatureLayerQuery.layerInitialized (self : FeatureLayerQuery) : Bool :=
  self.m_initialized

/-- `FeatureLayerQuery::runQuery(QString whereClause)`. -/
def FeatureLayerQuery.runQuery (upperOf : Char → List Char) (self : FeatureLayerQuery)
    (whereClause : String) : FeatureLayerQuery :=
  let queryParams : QueryParameters :=
    ⟨"STATE_NAME LIKE '" ++ toUpper upperOf whereClause ++ "%'"⟩
  { self with issuedQueries := self.issuedQueries ++ [queryParams] }

/-- `FeatureLayerQuery::queryResultsCount()`. -/
def FeatureLayerQuery.queryResultsCount (self : FeatureLayerQuery) : Int :=
  self.m_queryResultsCount

/-- The handler `queryFeaturesCompleted` run once per completed query, in the
order the queries complete. -/
def FeatureLayerQuery.queryFeaturesCompletedAll (self : FeatureLayerQuery) :
    List FeatureQueryResult → Option FeatureLayerQuery
  | [] => some self
  | queryResult :: later =>
    match self.queryFeaturesCompleted queryResult with
    | none => none
    | some self' => self'.queryFeaturesCompletedAll later

/-- Number of single quotes in a string. -/
def quoteCount (s : String) : Nat := s.data.count quote

/-! ## Concrete data used in the examples -/

def alabama : Feature := ⟨1, ⟨10⟩⟩
def alaska : Feature := ⟨2, ⟨20⟩⟩
def twoStates : FeatureQueryResult := ⟨[alabama, alaska]⟩
def noStates : FeatureQueryResult := ⟨[]⟩

/-- Some state other than the initial one: a layer that is loaded and still
shows the outcome of an earlier query. -/
def afterAlaska : FeatureLayerQuery :=
  { m_initialized := true, m_queryResultsCount := 1, selected := [alaska],
    viewpointCalls := [(⟨20⟩, 200)], emitted := [Signal.layerInitializedChanged,
    Signal.queryResultsCountChanged], issuedQueries := [⟨"STATE_NAME LIKE 'ALAS%'"⟩] }

/-! ## The code evaluated on concrete inputs -/

theorem runQuery_on_injection_input :
    (FeatureLayerQuery.init.runQuery asciiUpperOf "a' OR '1'='1").issuedQueries
      = [⟨"STATE_NAME LIKE 'A' OR '1'='1%'"⟩] := by decide

theorem queryFeaturesCompleted_on_twoStates :
    afterAlaska.queryFeaturesCompleted twoStates
      = some { afterAlaska with
          m_queryResultsCount := 2
          selected := [alabama, alaska]
          viewpointCalls := [(⟨20⟩, 200), (⟨10⟩, 200)]
          emitted := [Signal.layerInitializedChanged, Signal.queryResultsCountChanged,
            Signal.queryResultsCountChanged] } := by decide

theorem queryFeaturesCompleted_on_noStates :
    afterAlaska.queryFeaturesCompleted noStates
      = some { afterAlaska with
          m_queryResultsCount := 0
          emitted := [Signal.layerInitializedChanged, Signal.queryResultsCountChanged,
            Signal.queryResultsCountChanged] } := by decide

/-! ## Facts about the SDK operations and the loop -/

theorem hasNext_eq_true_iff (queryResult : FeatureQueryResult) :
    queryResult.hasNext = true ↔ queryResult.pending ≠ [] := by
  cases queryResult with
  | mk pending => cases pending <;> simp [FeatureQueryResult.hasNext]

theorem hasNext_eq_false_iff (queryResult : FeatureQueryResult) :
    queryResult.hasNext = false ↔ queryResult.pending = [] := by
  cases queryResult with
  | mk pending => cases pending <;> simp [FeatureQueryResult.hasNext]

/-- The loop ends at once when `hasNext()` is false. -/
theorem whileHasNext_done (queryResult : FeatureQueryResult) (features : List Feature)
    (h : queryResult.hasNext = false) :
    whileHasNext queryResult.pending features = (features, queryResult) := by
  cases queryResult with
  | mk pending =>
    cases pending with
    | nil => rfl
    | cons f rest => simp [FeatureQueryResult.hasNext] at h

/-- One turn of the loop: when `next()` returns `f` and leaves the cursor
`queryResult'`, the loop goes on from `queryResult'` with `f` appended. -/
theorem whileHasNext_step (queryResult queryResult' : FeatureQueryResult) (f : Feature)
    (features : List Feature) (h : queryResult.next = some (f, queryResult')) :
    whileHasNext queryResult.pending features
      = whileHasNext queryResult'.pending (features ++ [f]) := by
  cases queryResult with
  | mk pending =>
    cases pending with
    | nil => simp [FeatureQueryResult.next] at h
    | cons g rest =>
      simp only [FeatureQueryResult.next, Option.some.injEq, Prod.mk.injEq] at h
      obtain ⟨hg, hq⟩ := h
      subst hg
      subst hq
      rfl

/-- The loop drains the cursor: every pending feature is appended once, in
order, and nothing is left pending. -/
theorem whileHasNext_eq (pending features : List Feature) :
    whileHasNext pending features = (features ++ pending, ⟨[]⟩) := by
  induction pending generalizing features with
  | nil => simp [whileHasNext]
  | cons f rest ih => simp [whileHasNext, ih]

/-- The handler on an empty result. -/
theorem queryFeaturesCompleted_nil (self : FeatureLayerQuery) :
    self.queryFeaturesCompleted ⟨[]⟩
      = some { self with
          m_queryResultsCount := 0
          emitted := self.emitted ++ [Signal.queryResultsCountChanged] } := rfl

/-- The handler on a result with a first feature. -/
theorem queryFeaturesCompleted_cons (self : FeatureLayerQuery) (first : Feature)
    (rest : List Feature) :
    self.queryFeaturesCompleted ⟨first :: rest⟩
      = some { self with
          m_queryResultsCount := ((first :: rest).length : Int)
          selected := first :: rest
          viewpointCalls := self.viewpointCalls ++ [(first.geometry, 200)]
          emitted := self.emitted ++ [Signal.queryResultsCountChanged] } := by
  simp [FeatureLayerQuery.queryFeaturesCompleted, FeatureQueryResult.hasNext, whileHasNext_eq,
    FeatureLayerQuery.clearSelection, FeatureLayerQuery.selectFeatures,
    FeatureLayerQuery.setViewpointGeometry, FeatureLayerQuery.emit]

theorem queryFeaturesCompletedAll_append (self : FeatureLayerQuery)
    (earlier later : List FeatureQueryResult) :
    self.queryFeaturesCompletedAll (earlier ++ later)
      = (self.queryFeaturesCompletedAll earlier).bind
          (fun mid => mid.queryFeaturesCompletedAll later) := by
  induction earlier generalizing self with
  | nil => rfl
  | cons q qs ih =>
    simp only [List.cons_append, FeatureLayerQuery.queryFeaturesCompletedAll]
    cases self.queryFeaturesCompleted q with
    | none => rfl
    | some mid => exact ih mid

/-- The handler never reaches the out-of-range access. -/
theorem queryFeaturesCompleted_isSome (self : FeatureLayerQuery)
    (queryResult : FeatureQueryResult) :
    (self.queryFeaturesCompleted queryResult).isSome = true := by
  cases queryResult with
  | mk pending =>
    cases pending with
    | nil => rfl
    | cons f rest => rw [queryFeaturesCompleted_cons]; rfl

theorem queryFeaturesCompletedAll_isSome (self : FeatureLayerQuery)
    (results : List FeatureQueryResult) :
    (self.queryFeaturesCompletedAll results).isSome = true := by
  induction results generalizing self with
  | nil => rfl
  | cons q qs ih =>
    have h := queryFeaturesCompleted_isSome self q
    simp only [FeatureLayerQuery.queryFeaturesCompletedAll]
    cases hq : self.queryFeaturesCompleted q with
    | none => rw [hq] at h; cases h
    | some mid => exact ih mid

/-! ## The query trigger -/

theorem toUpper_append (upperOf : Char → List Char) (s t : String) :
    toUpper upperOf (s ++ t) = toUpper upperOf s ++ toUpper upperOf t := by
  apply String.ext
  simp [toUpper, String.data_append, List.flatMap_append]

theorem toUpper_empty (upperOf : Char → List Char) : toUpper upperOf "" = "" := rfl

/-- C1: for every input `s` (and whatever the case table), `runQuery(s)` issues
exactly one query on the feature table: the list of issued queries grows by one
entry, whose where clause is `STATE_NAME LIKE '` followed by the upper-cased
input and `%'`; character by character that is the field name and `LIKE`, an
opening single quote, the upper-cased input, a percent sign and a closing single
quote. -/
theorem runQuery_issues_like_clause (upperOf : Char → List Char) (self : FeatureLayerQuery)
    (s : String) :
    (self.runQuery upperOf s).issuedQueries
        = self.issuedQueries ++ [⟨"STATE_NAME LIKE '" ++ toUpper upperOf s ++ "%'"⟩]
      ∧ (self.runQuery upperOf s).issuedQueries.length = self.issuedQueries.length + 1
      ∧ ("STATE_NAME LIKE '" ++ toUpper upperOf s ++ "%'").data
        = "STATE_NAME LIKE ".data ++ [quote] ++ (toUpper upperOf s).data ++ ['%', quote] := by
  refine ⟨rfl, ?_, ?_⟩
  · simp [FeatureLayerQuery.runQuery]
  · simp only [String.data_append]
    rfl

/-! ## The result handler -/

/-- C2: for every non-empty result sequence and every prior state, the loop
drains the whole sequence (each feature appended once, in order, nothing left
pending), the handler `queryFeaturesCompleted` returns, and afterwards
`queryResultsCount()` is the number of features of the sequence, whatever the
count was before. -/
theorem queryResultsCount_eq_number_returned (self : FeatureLayerQuery)
    (queryResult : FeatureQueryResult) (h : queryResult.pending ≠ []) :
    whileHasNext queryResult.pending [] = (queryResult.pending, ⟨[]⟩)
      ∧ ∃ self', self.queryFeaturesCompleted queryResult = some self'
        ∧ self'.queryResultsCount = (queryResult.pending.length : Int) := by
  refine ⟨by simp [whileHasNext_eq], ?_⟩
  cases queryResult with
  | mk pending =>
    cases pending with
    | nil => exact absurd rfl h
    | cons f rest => exact ⟨_, queryFeaturesCompleted_cons self f rest, rfl⟩

theorem queryResultsCount_eq_number_returned_witness :
    twoStates.pending ≠ []
      ∧ whileHasNext twoStates.pending [] = (twoStates.pending, ⟨[]⟩)
      ∧ ∃ self', afterAlaska.queryFeaturesCompleted twoStates = some self'
        ∧ self'.queryResultsCount = (twoStates.pending.length : Int) :=
  ⟨by decide, queryResultsCount_eq_number_returned afterAlaska twoStates (by decide)⟩

/-- C3: for every non-empty result sequence and every prior selection, after
the handler `queryFeaturesCompleted` the selection of the layer is the returned
sequence, in the order returned; a feature selected before stays selected only
if it is in the new result. -/
theorem selection_is_returned_sequence (self : FeatureLayerQuery)
    (queryResult : FeatureQueryResult) (h : queryResult.pending ≠ []) :
    ∃ self', self.queryFeaturesCompleted queryResult = some self'
      ∧ self'.selected = queryResult.pending
      ∧ ∀ f, f ∈ self.selected → f ∈ self'.selected → f ∈ queryResult.pending := by
  cases queryResult with
  | mk pending =>
    cases pending with
    | nil => exact absurd rfl h
    | cons f rest =>
      exact ⟨_, queryFeaturesCompleted_cons self f rest, rfl, fun _ _ hg => hg⟩

theorem selection_is_returned_sequence_witness :
    twoStates.pending ≠ []
      ∧ ∃ self', afterAlaska.queryFeaturesCompleted twoStates = some self'
        ∧ self'.selected = twoStates.pending
        ∧ ∀ f, f ∈ afterAlaska.selected → f ∈ self'.selected → f ∈ twoStates.pending :=
  ⟨by decide, selection_is_returned_sequence afterAlaska twoStates (by decide)⟩

/-- C4: for every non-empty result sequence, the handler `queryFeaturesCompleted`
calls `setViewpointGeometry` exactly once, with the geometry of the first
feature of the sequence as the service returned it and the padding 200. -/
theorem viewpoint_set_once_to_first_feature (self : FeatureLayerQuery)
    (queryResult : FeatureQueryResult) (first : Feature)
    (h : queryResult.pending.head? = some first) :
    ∃ self', self.queryFeaturesCompleted queryResult = some self'
      ∧ self'.viewpointCalls = self.viewpointCalls ++ [(first.geometry, 200)] := by
  cases queryResult with
  | mk pending =>
    cases pending with
    | nil => simp at h
    | cons f rest =>
      simp only [List.head?_cons, Option.some.injEq] at h
      subst h
      exact ⟨_, queryFeaturesCompleted_cons self f rest, rfl⟩

theorem viewpoint_set_once_to_first_feature_witness :
    twoStates.pending.head? = some alabama
      ∧ ∃ self', afterAlaska.queryFeaturesCompleted twoStates = some self'
        ∧ self'.viewpointCalls = afterAlaska.viewpointCalls ++ [(alabama.geometry, 200)] :=
  ⟨by decide, viewpoint_set_once_to_first_feature afterAlaska twoStates alabama (by decide)⟩

/-- C5: for every prior state, on an empty result sequence the handler
`queryFeaturesCompleted` sets the count to 0, emits `queryResultsCountChanged`
exactly once, leaves the selection as it was or empty, and leaves the viewpoint
and the ready flag unchanged. -/
theorem empty_result_resets_count_only (self : FeatureLayerQuery)
    (queryResult : FeatureQueryResult) (h : queryResult.pending = []) :
    ∃ self', self.queryFeaturesCompleted queryResult = some self'
      ∧ self'.queryResultsCount = 0
      ∧ self'.emitted = self.emitted ++ [Signal.queryResultsCountChanged]
      ∧ (self'.selected = self.selected ∨ self'.selected = [])
      ∧ self'.viewpointCalls = self.viewpointCalls
      ∧ self'.layerInitialized = self.layerInitialized := by
  cases queryResult with
  | mk pending =>
    simp only at h
    subst h
    exact ⟨_, queryFeaturesCompleted_nil self, rfl, rfl, Or.inl rfl, rfl, rfl⟩

theorem empty_result_resets_count_only_witness :
    noStates.pending = []
      ∧ ∃ self', afterAlaska.queryFeaturesCompleted noStates = some self'
        ∧ self'.queryResultsCount = 0
        ∧ self'.emitted = afterAlaska.emitted ++ [Signal.queryResultsCountChanged]
        ∧ (self'.selected = afterAlaska.selected ∨ self'.selected = [])
        ∧ self'.viewpointCalls = afterAlaska.viewpointCalls
        ∧ self'.layerInitialized = afterAlaska.layerInitialized :=
  ⟨rfl, empty_result_resets_count_only afterAlaska noStates rfl⟩

/-! ## The readiness handler -/

/-- C6: for every load status and every prior state, after the handler
`loadStatusChanged` the value of `layerInitialized()` is true exactly when the
status is `Loaded`, whatever the flag was before, and `layerInitializedChanged`
has been emitted exactly once, also when the flag kept its value. -/
theorem layerInitialized_iff_loaded (self : FeatureLayerQuery) (loadStatus : LoadStatus) :
    ((self.loadStatusChanged loadStatus).layerInitialized = true
        ↔ loadStatus = LoadStatus.Loaded)
      ∧ (self.loadStatusChanged loadStatus).emitted
        = self.emitted ++ [Signal.layerInitializedChanged] := by
  constructor
  · by_cases hl : loadStatus = LoadStatus.Loaded <;>
      simp [FeatureLayerQuery.loadStatusChanged, FeatureLayerQuery.layerInitialized,
        FeatureLayerQuery.emit, hl]
  · by_cases hl : loadStatus = LoadStatus.Loaded <;>
      simp [FeatureLayerQuery.loadStatusChanged, FeatureLayerQuery.emit, hl]

/-- C9: the access `features.at(0)` is never out of range.  For every prior
state and every result sequence the handler returns a state (it never takes the
out-of-range branch); the loop, a total function, leaves a cursor with nothing
pending; and unless the handler returned early because `hasNext()` was false,
the list the loop built has an element at index 0. -/
theorem features_at_zero_in_range (self : FeatureLayerQuery)
    (queryResult : FeatureQueryResult) :
    (self.queryFeaturesCompleted queryResult).isSome = true
      ∧ (whileHasNext queryResult.pending []).2.hasNext = false
      ∧ (queryResult.hasNext = false
          ∨ ∃ first, (whileHasNext queryResult.pending []).1[0]? = some first) := by
  refine ⟨queryFeaturesCompleted_isSome self queryResult, ?_, ?_⟩
  · rw [whileHasNext_eq]
    rfl
  · cases queryResult with
    | mk pending =>
      cases pending with
      | nil => exact Or.inl rfl
      | cons f rest => exact Or.inr ⟨f, by simp [whileHasNext_eq]⟩

/-! ## Selection across several completed queries -/

/-- C7, as stated, fails.  Starting from the constructor state, a query that
returns Alabama and Alaska followed by a query that returns nothing leaves both
features selected: the selection is not the (empty) most recent result, and the
number of selected features, 2, differs from `queryResultsCount()`, 0. -/
theorem selected_kept_after_empty_result :
    ∃ after, FeatureLayerQuery.init.queryFeaturesCompletedAll [twoStates, noStates] = some after
      ∧ after.selected = [alabama, alaska]
      ∧ after.selected ≠ noStates.pending
      ∧ after.queryResultsCount = 0
      ∧ (after.selected.length : Int) ≠ after.queryResultsCount :=
  ⟨_, rfl, rfl, by decide, rfl, by decide⟩

/-- C7, amended: for every prior state and every sequence of completed queries,
every handler invocation returns; after an invocation with a non-empty result
the selection is exactly the features of that result, in order, and their number
is `queryResultsCount()`; after an invocation with an empty result the selection
is the one the previous invocation left and `queryResultsCount()` is 0. -/
theorem selected_after_each_completed_query (self : FeatureLayerQuery)
    (earlier : List FeatureQueryResult) (latest : FeatureQueryResult) :
    ∃ before after, self.queryFeaturesCompletedAll earlier = some before
      ∧ before.queryFeaturesCompleted latest = some after
      ∧ self.queryFeaturesCompletedAll (earlier ++ [latest]) = some after
      ∧ if latest.pending = [] then
          after.selected = before.selected ∧ after.queryResultsCount = 0
        else
          after.selected = latest.pending
            ∧ (after.selected.length : Int) = after.queryResultsCount := by
  have hsome := queryFeaturesCompletedAll_isSome self earlier
  cases hb : self.queryFeaturesCompletedAll earlier with
  | none => rw [hb] at hsome; cases hsome
  | some before =>
    have hrun : ∀ after, before.queryFeaturesCompleted latest = some after →
        self.queryFeaturesCompletedAll (earlier ++ [latest]) = some after := by
      intro after ha
      rw [queryFeaturesCompletedAll_append, hb]
      simp [FeatureLayerQuery.queryFeaturesCompletedAll, ha]
    cases latest with
    | mk pending =>
      cases pending with
      | nil =>
        exact ⟨before, _, rfl, queryFeaturesCompleted_nil before,
          hrun _ (queryFeaturesCompleted_nil before), by simp [FeatureLayerQuery.queryResultsCount]⟩
      | cons f rest =>
        exact ⟨before, _, rfl, queryFeaturesCompleted_cons before f rest,
          hrun _ (queryFeaturesCompleted_cons before f rest),
          by simp [FeatureLayerQuery.queryResultsCount]⟩

theorem selected_after_each_completed_query_witness :
    ∃ before after,
      FeatureLayerQuery.init.queryFeaturesCompletedAll [twoStates] = some before
      ∧ before.queryFeaturesCompleted noStates = some after
      ∧ FeatureLayerQuery.init.queryFeaturesCompletedAll ([twoStates] ++ [noStates]) = some after
      ∧ if noStates.pending = [] then
          after.selected = before.selected ∧ after.queryResultsCount = 0
        else
          after.selected = noStates.pending
            ∧ (after.selected.length : Int) = after.queryResultsCount :=
  selected_after_each_completed_query FeatureLayerQuery.init [twoStates] noStates

/-! ## Upper-casing and single quotes -/

theorem flatMap_upperOf_fixed (upperOf : Char → List Char) (m : List Char)
    (h : ∀ d, d ∈ m → upperOf d = [d]) : m.flatMap upperOf = m := by
  induction m with
  | nil => rfl
  | cons d ds ih =>
    rw [List.flatMap_cons, h d (List.mem_cons_self d ds),
      ih (fun e he => h e (List.mem_cons_of_mem d he))]
    rfl

/-- Upper-casing twice is upper-casing once, when every character of an
upper-case mapping is its own upper-case mapping. -/
theorem toUpper_idempotent (upperOf : Char → List Char)
    (hidem : ∀ c d, d ∈ upperOf c → upperOf d = [d]) (s : String) :
    toUpper upperOf (toUpper upperOf s) = toUpper upperOf s := by
  apply String.ext
  show (s.data.flatMap upperOf).flatMap upperOf = s.data.flatMap upperOf
  induction s.data with
  | nil => rfl
  | cons c cs ih =>
    rw [List.flatMap_cons, List.flatMap_append, ih,
      flatMap_upperOf_fixed upperOf (upperOf c) (hidem c)]

/-- Upper-casing neither adds nor removes a single quote, when the quote is its
own upper-case mapping and occurs in no other mapping. -/
theorem quoteCount_toUpper (upperOf : Char → List Char) (hq : upperOf quote = [quote])
    (hother : ∀ c, quote ∈ upperOf c → c = quote) (s : String) :
    quoteCount (toUpper upperOf s) = quoteCount s := by
  show (s.data.flatMap upperOf).count quote = s.data.count quote
  induction s.data with
  | nil => rfl
  | cons c cs ih =>
    rw [List.flatMap_cons, List.count_append, ih, List.count_cons]
    by_cases hc : c = quote
    · subst hc
      rw [hq]
      simp [Nat.add_comm]
    · have h0 : (upperOf c).count quote = 0 :=
        List.count_eq_zero.mpr (fun hmem => hc (hother c hmem))
      have hne : (c == quote) = false := by simpa using hc
      rw [h0, hne]
      simp

theorem quoteCount_append (s t : String) : quoteCount (s ++ t) = quoteCount s + quoteCount t := by
  simp [quoteCount, String.data_append, List.count_append]

theorem toUpper_quote (upperOf : Char → List Char) (hq : upperOf quote = [quote]) :
    toUpper upperOf "'" = "'" := by
  apply String.ext
  show [quote].flatMap upperOf = [quote]
  simp [hq]

theorem toNat_ofNat_ascii (n : Nat) (h : n < 128) : (Char.ofNat n).toNat = n := by
  have hv : n.isValidChar := Or.inl (by omega)
  simp [Char.ofNat, hv, Char.ofNatAux, Char.toNat]
  rfl

theorem asciiUpperOf_quote : asciiUpperOf quote = [quote] := by decide

theorem asciiUpperOf_ne_nil (c : Char) : asciiUpperOf c ≠ [] := by
  simp [asciiUpperOf]

theorem asciiUpperOf_quote_only (c : Char) (h : quote ∈ asciiUpperOf c) : c = quote := by
  have h0 : quote = c.toUpper := by simpa [asciiUpperOf] using h
  have h1 : c.toUpper = Char.ofNat 39 := h0.symm
  show c = Char.ofNat 39
  unfold Char.toUpper at h1
  simp only [] at h1
  by_cases hc : c.toNat ≥ 97 ∧ c.toNat ≤ 122
  · rw [if_pos hc] at h1
    have h2 : (Char.ofNat (c.toNat - 32)).toNat = c.toNat - 32 :=
      toNat_ofNat_ascii _ (by omega)
    rw [h1] at h2
    have h3 : (Char.ofNat 39).toNat = 39 := by decide
    omega
  · rw [if_neg hc] at h1
    exact h1

theorem asciiUpperOf_idempotent (c d : Char) (h : d ∈ asciiUpperOf c) : asciiUpperOf d = [d] := by
  have hd : d = c.toUpper := by simpa [asciiUpperOf] using h
  subst hd
  show [c.toUpper.toUpper] = [c.toUpper]
  congr 1
  unfold Char.toUpper
  simp only []
  by_cases hc : c.toNat ≥ 97 ∧ c.toNat ≤ 122
  · have h2 : (Char.ofNat (c.toNat - 32)).toNat = c.toNat - 32 :=
      toNat_ofNat_ascii _ (by omega)
    rw [if_pos hc, h2, if_neg (by omega)]
  · rw [if_neg hc, if_neg hc]

/-- C8: `runQuery` neither escapes nor rejects.  Assume of the case table only
that the single quote is its own upper-case mapping, that no other character
has a quote in its mapping, and that no mapping is empty.  Then for every input
`s` the query is issued with the clause `STATE_NAME LIKE '` ++ upper(s) ++ `%'`,
which holds exactly the quotes of `s` and the two delimiters; a quote at any
place of the input stands alone at the same place of the clause; and for the
input `a' OR '1'='1` the clause has more than two quotes and reads
`STATE_NAME LIKE '` ++ lit ++ `'` ++ tail ++ `%'` with no quote in `lit` and a
`tail` that starts with a character other than a quote, so that the literal
opened after `LIKE` is closed before the appended `%'`. -/
theorem runQuery_does_not_escape (upperOf : Char → List Char)
    (hq : upperOf quote = [quote]) (hother : ∀ c, quote ∈ upperOf c → c = quote)
    (hne : ∀ c, upperOf c ≠ []) :
    (∀ (self : FeatureLayerQuery) (s : String), ∃ clause,
        (self.runQuery upperOf s).issuedQueries = self.issuedQueries ++ [⟨clause⟩]
        ∧ clause = "STATE_NAME LIKE '" ++ toUpper upperOf s ++ "%'"
        ∧ quoteCount clause = quoteCount s + 2)
      ∧ (∀ (self : FeatureLayerQuery) (a b : String),
        (self.runQuery upperOf (a ++ "'" ++ b)).issuedQueries
          = self.issuedQueries
            ++ [⟨"STATE_NAME LIKE '" ++ toUpper upperOf a ++ "'" ++ toUpper upperOf b ++ "%'"⟩])
      ∧ (∃ clause lit tail first,
        (FeatureLayerQuery.init.runQuery upperOf "a' OR '1'='1").issuedQueries = [⟨clause⟩]
        ∧ 2 < quoteCount clause
        ∧ clause = "STATE_NAME LIKE '" ++ lit ++ "'" ++ tail ++ "%'"
        ∧ quoteCount lit = 0
        ∧ tail.data.head? = some first ∧ first ≠ quote) := by
  have hsplit : ∀ a b : String,
      "STATE_NAME LIKE '" ++ toUpper upperOf (a ++ "'" ++ b) ++ "%'"
        = "STATE_NAME LIKE '" ++ toUpper upperOf a ++ "'" ++ toUpper upperOf b ++ "%'" := by
    intro a b
    rw [toUpper_append, toUpper_append, toUpper_quote upperOf hq]
    simp only [String.append_assoc]
  have hcount : ∀ s : String,
      quoteCount ("STATE_NAME LIKE '" ++ toUpper upperOf s ++ "%'") = quoteCount s + 2 := by
    intro s
    rw [quoteCount_append, quoteCount_append, quoteCount_toUpper upperOf hq hother]
    have h1 : quoteCount "STATE_NAME LIKE '" = 1 := by decide
    have h2 : quoteCount "%'" = 1 := by decide
    omega
  refine ⟨fun self s => ⟨_, rfl, rfl, hcount s⟩, fun self a b => ?_, ?_⟩
  · show self.issuedQueries ++ [_] = _
    rw [hsplit]
  · have hin : ("a' OR '1'='1" : String) = "a" ++ "'" ++ " OR '1'='1" := by decide
    obtain ⟨first, rest, hfr⟩ := List.exists_cons_of_ne_nil (hne ' ')
    refine ⟨_, toUpper upperOf "a", toUpper upperOf " OR '1'='1", first, rfl, ?_, ?_, ?_, ?_, ?_⟩
    · rw [hcount]
      have h4 : quoteCount "a' OR '1'='1" = 4 := by decide
      omega
    · rw [hin]
      exact hsplit _ _
    · rw [quoteCount_toUpper upperOf hq hother]
      decide
    · show (" OR '1'='1".data.flatMap upperOf).head? = some first
      have hd : (" OR '1'='1" : String).data = ' ' :: "OR '1'='1".data := by decide
      rw [hd, List.flatMap_cons, hfr]
      rfl
    · intro hfq
      have hmem : quote ∈ upperOf ' ' := by
        rw [hfr, hfq]
        exact List.mem_cons_self _ _
      have := hother ' ' hmem
      revert this
      decide

theorem runQuery_does_not_escape_witness :
    (asciiUpperOf quote = [quote] ∧ (∀ c, quote ∈ asciiUpperOf c → c = quote)
        ∧ ∀ c, asciiUpperOf c ≠ [])
      ∧ ((∀ (self : FeatureLayerQuery) (s : String), ∃ clause,
          (self.runQuery asciiUpperOf s).issuedQueries = self.issuedQueries ++ [⟨clause⟩]
          ∧ clause = "STATE_NAME LIKE '" ++ toUpper asciiUpperOf s ++ "%'"
          ∧ quoteCount clause = quoteCount s + 2)
        ∧ (∀ (self : FeatureLayerQuery) (a b : String),
          (self.runQuery asciiUpperOf (a ++ "'" ++ b)).issuedQueries
            = self.issuedQueries
              ++ [⟨"STATE_NAME LIKE '" ++ toUpper asciiUpperOf a ++ "'"
                ++ toUpper asciiUpperOf b ++ "%'"⟩])
        ∧ (∃ clause lit tail first,
          (FeatureLayerQuery.init.runQuery asciiUpperOf "a' OR '1'='1").issuedQueries
            = [⟨clause⟩]
          ∧ 2 < quoteCount clause
          ∧ clause = "STATE_NAME LIKE '" ++ lit ++ "'" ++ tail ++ "%'"
          ∧ quoteCount lit = 0
          ∧ tail.data.head? = some first ∧ first ≠ quote)) :=
  ⟨⟨asciiUpperOf_quote, asciiUpperOf_quote_only, asciiUpperOf_ne_nil⟩,
    runQuery_does_not_escape asciiUpperOf asciiUpperOf_quote asciiUpperOf_quote_only
      asciiUpperOf_ne_nil⟩

/-- C10: `runQuery` does not tell apart inputs that differ in case only.  Two
inputs with the same upper-casing leave the same state, hence issue the same
where clause; when every character of an upper-case mapping is its own mapping
(upper-casing is idempotent), `runQuery(toUpper(s))` does what `runQuery(s)`
does; and `runQuery` of the empty string issues `STATE_NAME LIKE '%'`. -/
theorem runQuery_case_insensitive (upperOf : Char → List Char)
    (hidem : ∀ c d, d ∈ upperOf c → upperOf d = [d]) :
    (∀ (self : FeatureLayerQuery) (s t : String), toUpper upperOf s = toUpper upperOf t →
        self.runQuery upperOf s = self.runQuery upperOf t)
      ∧ (∀ (self : FeatureLayerQuery) (s : String),
        self.runQuery upperOf (toUpper upperOf s) = self.runQuery upperOf s)
      ∧ (∀ self : FeatureLayerQuery,
        (self.runQuery upperOf "").issuedQueries
          = self.issuedQueries ++ [⟨"STATE_NAME LIKE '%'"⟩]) := by
  refine ⟨fun self s t h => ?_, fun self s => ?_, fun self => ?_⟩
  · simp only [FeatureLayerQuery.runQuery, h]
  · simp only [FeatureLayerQuery.runQuery, toUpper_idempotent upperOf hidem]
  · show self.issuedQueries ++ [_] = _
    rw [toUpper_empty]
    rfl

theorem runQuery_case_insensitive_witness :
    (∀ c d, d ∈ asciiUpperOf c → asciiUpperOf d = [d])
      ∧ ((∀ (self : FeatureLayerQuery) (s t : String),
          toUpper asciiUpperOf s = toUpper asciiUpperOf t →
          self.runQuery asciiUpperOf s = self.runQuery asciiUpperOf t)
        ∧ (∀ (self : FeatureLayerQuery) (s : String),
          self.runQuery asciiUpperOf (toUpper asciiUpperOf s) = self.runQuery asciiUpperOf s)
        ∧ (∀ self : FeatureLayerQuery,
          (self.runQuery asciiUpperOf "").issuedQueries
            = self.issuedQueries ++ [⟨"STATE_NAME LIKE '%'"⟩])) :=
  ⟨asciiUpperOf_idempotent, runQuery_case_insensitive asciiUpperOf asciiUpperOf_idempotent⟩

end FeatureLayerQuerySample
